import Mathlib

/-!
Verification of the open-vtt converter (`src/open-vtt.py`) against its
natural-language specification.  Python functions are shallowly embedded as
executable Lean definitions: Python floats are modelled as exact rationals,
Python strings as `List Char` or `String`, filesystem and subprocess effects
as explicit parameters describing the outcomes the code observes.
-/

namespace OpenVTT

/-! ### Python primitives used by the embedding -/

/-- Python `int(q)`: truncation toward zero. -/
def pyInt (q : ℚ) : ℤ := if 0 ≤ q then ⌊q⌋ else ⌈q⌉

/-- Python `round` on a rational: round half to even, as used by
`datetime.timedelta` when normalising fractional seconds to microseconds. -/
def pyRoundHalfEven (q : ℚ) : ℤ :=
  if q - ⌊q⌋ < 1/2 then ⌊q⌋
  else if 1/2 < q - ⌊q⌋ then ⌊q⌋ + 1
  else if ⌊q⌋ % 2 = 0 then ⌊q⌋ else ⌊q⌋ + 1

/-! ### `to_vtt_time` (src/open-vtt.py, lines 197-204)

```
def to_vtt_time(seconds: float) -> str:
    td = datetime.timedelta(seconds=seconds)
    total_seconds = int(td.total_seconds())
    hours, remainder = divmod(total_seconds, 3600)
    minutes, secs = divmod(remainder, 60)
    milliseconds = int((seconds - int(seconds)) * 1000)
    return f"..."  -- HH:MM:SS.mmm with 02/02/02/03 zero padding
```

`datetime.timedelta(seconds=q).total_seconds()` stores the duration with
microsecond resolution (rounding half to even) and returns it as seconds. -/

/-- Seconds value stored by `datetime.timedelta(seconds=q)`, i.e. `q`
rounded to microsecond resolution (round half to even). -/
def td_total_seconds (q : ℚ) : ℚ := (pyRoundHalfEven (q * 1000000) : ℚ) / 1000000

/-- Python format `f"{n:02}"` for an integer: zero-pad to width 2. -/
def fmtPad2 (n : ℤ) : String :=
  if 0 ≤ n ∧ n < 10 then "0" ++ toString n else toString n

/-- Python format `f"{n:03}"` for an integer: zero-pad to width 3. -/
def fmtPad3 (n : ℤ) : String :=
  if 0 ≤ n ∧ n < 10 then "00" ++ toString n
  else if 0 ≤ n ∧ n < 100 then "0" ++ toString n
  else toString n

/-- `total_seconds = int(td.total_seconds())` in `to_vtt_time`. -/
def vttTotalSeconds (q : ℚ) : ℤ := pyInt (td_total_seconds q)

/-- `hours` in `to_vtt_time` (`divmod` is floor division in Python). -/
def vttHours (q : ℚ) : ℤ := Int.fdiv (vttTotalSeconds q) 3600

/-- `remainder` in `to_vtt_time`. -/
def vttRemainder (q : ℚ) : ℤ := Int.fmod (vttTotalSeconds q) 3600

/-- `minutes` in `to_vtt_time`. -/
def vttMinutes (q : ℚ) : ℤ := Int.fdiv (vttRemainder q) 60

/-- `secs` in `to_vtt_time`. -/
def vttSecs (q : ℚ) : ℤ := Int.fmod (vttRemainder q) 60

/-- `milliseconds = int((seconds - int(seconds)) * 1000)` in `to_vtt_time`. -/
def vttMilliseconds (q : ℚ) : ℤ := pyInt ((q - (pyInt q : ℚ)) * 1000)

/-- `to_vtt_time`: format seconds into a WebVTT timestamp `HH:MM:SS.mmm`. -/
def to_vtt_time (q : ℚ) : String :=
  fmtPad2 (vttHours q) ++ ":" ++ fmtPad2 (vttMinutes q) ++ ":" ++
    fmtPad2 (vttSecs q) ++ "." ++ fmtPad3 (vttMilliseconds q)

/-! ### `run_command` (src/open-vtt.py, lines 176-189) -/

/-- Outcome of the underlying `subprocess.run` call as observed by
`run_command`: normal completion with a return code and captured streams,
a `FileNotFoundError` (missing executable), or a `TimeoutExpired`. -/
inductive ProcOutcome where
  | completed (code : ℤ) (stdout stderr : String)
  | fileNotFound
  | timedOut
  deriving DecidableEq, Repr

/-- The fixed timeout, in seconds, passed to `subprocess.run`. -/
def RUN_COMMAND_TIMEOUT : ℕ := 3600

/-- `run_command(cmd)`: returns `(returncode, stdout, stderr)`, mapping a
missing executable to `(-1, "", "Command not found: cmd[0]")` and a timeout
to `(-2, "", "Command timed out")`. -/
def run_command (cmd : List String) (outcome : ProcOutcome) : ℤ × String × String :=
  match outcome with
  | .completed code out err => (code, out, err)
  | .fileNotFound => (-1, "", "Command not found: " ++ cmd.headD "")
  | .timedOut => (-2, "", "Command timed out")

/-! ### Python string primitives (texts as `List Char`) -/

/-- Python whitespace characters removed by `str.strip()`. -/
def pySpaceChar (c : Char) : Bool :=
  c = ' ' || c = '\t' || c = '\n' || c = '\r' || c = '\x0b' || c = '\x0c'

/-- Python `str.strip()`: drop leading and trailing whitespace. -/
def pyStrip (l : List Char) : List Char :=
  ((l.dropWhile pySpaceChar).reverse.dropWhile pySpaceChar).reverse

/-- Index (relative) of the first occurrence of `sub` in `l`, if any. -/
def firstOccAux (sub : List Char) : List Char → Option ℕ
  | [] => if sub.isEmpty then some 0 else none
  | c :: rest =>
      if sub.isPrefixOf (c :: rest) then some 0
      else (firstOccAux sub rest).map (· + 1)

/-- Python `s.find(sub, start)`: lowest index `≥ start` where `sub` occurs,
`-1` if absent. -/
def pyFind (s sub : List Char) (start : ℕ) : ℤ :=
  match firstOccAux sub (s.drop start) with
  | none => -1
  | some k => (start : ℤ) + k

/-- Python `sub in s`. -/
def pyContains (s sub : List Char) : Bool := (firstOccAux sub s).isSome

/-- The `"WEBVTT"` marker. -/
def markerWEBVTT : List Char := "WEBVTT".toList

/-- The fenced-code-block terminator. -/
def fenceTicks : List Char := "```".toList

/-! ### VTT extraction from the model response (src/open-vtt.py)

`call_gemini` (lines 746-758) extracts the VTT span:

```
if "WEBVTT" in text:
    vtt_start = text.find("WEBVTT")
    vtt_end = text.find("```", vtt_start)
    if vtt_end > vtt_start:
        vtt_text = text[vtt_start:vtt_end].strip()
    else:
        vtt_text = text[vtt_start:].strip()
else:
    vtt_text = text
```

The self-test replica `extract_vtt` (lines 940-949) differs only in the
no-terminator branch, where it returns `text[vtt_start:]` unstripped. -/

/-- The extraction performed inside `call_gemini`. -/
def gemini_extract_vtt (text : List Char) : List Char :=
  if pyContains text markerWEBVTT then
    let vs := pyFind text markerWEBVTT 0
    let ve := pyFind text fenceTicks vs.toNat
    if vs < ve then pyStrip ((text.take ve.toNat).drop vs.toNat)
    else pyStrip (text.drop vs.toNat)
  else text

/-- The self-test replica `extract_vtt`. -/
def extract_vtt (text : List Char) : List Char :=
  if pyContains text markerWEBVTT then
    let vs := pyFind text markerWEBVTT 0
    let ve := pyFind text fenceTicks vs.toNat
    if ve = -1 then text.drop vs.toNat
    else pyStrip ((text.take ve.toNat).drop vs.toNat)
  else text

/-- Claim C2's description of the extraction result: the raw span from the
first marker occurrence up to (excluding) the next terminator occurrence,
or to the end of text when no terminator follows; the input itself when the
marker is absent. -/
def claimC2_extract (text : List Char) : List Char :=
  if pyContains text markerWEBVTT then
    let vs := pyFind text markerWEBVTT 0
    let ve := pyFind text fenceTicks vs.toNat
    if ve = -1 then text.drop vs.toNat
    else (text.take ve.toNat).drop vs.toNat
  else text

/-! ### `downsample_video` (src/open-vtt.py, lines 519-555)

The filesystem and ffmpeg effects are abstracted: the input file's size and,
for each preset in `DOWNSAMPLE_TARGETS` order, the outcome the code observes
after invoking ffmpeg for that preset (return code, whether the output file
exists, and its size in MB). -/

/-- Outcome observed after one ffmpeg transcoding attempt. -/
structure AttemptResult where
  code : ℤ
  outExists : Bool
  outSizeMB : ℚ
  deriving DecidableEq

/-- Result of `downsample_video`: the original path, the downsampled output
(identified by the index of the accepted preset), or `None`. -/
inductive DsResult where
  | original
  | downsampled (presetIdx : ℕ)
  | failed
  deriving DecidableEq

/-- A preset attempt is accepted when ffmpeg exits 0, the output file
exists, and its size is at most the ceiling. -/
def downsample_accept (maxSize : ℚ) (a : AttemptResult) : Bool :=
  decide (a.code = 0) && a.outExists && decide (a.outSizeMB ≤ maxSize)

/-- The `for target in DOWNSAMPLE_TARGETS` loop; `n` is the index of the
next preset; the second component counts ffmpeg invocations so far plus
those performed by the remaining loop. -/
def downsample_go (maxSize : ℚ) : List AttemptResult → ℕ → DsResult × ℕ
  | [], n => (DsResult.failed, n)
  | a :: rest, n =>
      if a.code = 0 ∧ a.outExists = true then
        if a.outSizeMB ≤ maxSize then (DsResult.downsampled n, n + 1)
        else downsample_go maxSize rest (n + 1)
      else downsample_go maxSize rest (n + 1)

/-- `downsample_video`: skip transcoding entirely when the input is already
under the ceiling, otherwise try the presets in order.  The second
component is the number of ffmpeg invocations performed. -/
def downsample_video (sizeMB maxSize : ℚ) (attempts : List AttemptResult) : DsResult × ℕ :=
  if sizeMB ≤ maxSize then (DsResult.original, 0)
  else downsample_go maxSize attempts 0

/-! ### `deep_update` (src/open-vtt.py, lines 73-80)

JSON documents as an inductive type; objects are association lists in
insertion order, matching Python dict semantics. -/

/-- A JSON value. -/
inductive JValue where
  | null
  | bool (b : Bool)
  | num (q : ℚ)
  | str (s : String)
  | arr (elems : List JValue)
  | obj (entries : List (String × JValue))

/-- Python dict assignment `d[k] = v`: replace in place, else append. -/
def setKey : List (String × JValue) → String → JValue → List (String × JValue)
  | [], k, v => [(k, v)]
  | (k', v') :: rest, k, v =>
      if k' = k then (k, v) :: rest else (k', v') :: setKey rest k v

/-- Python dict lookup `d[k]` / `k in d`. -/
def getKey : List (String × JValue) → String → Option JValue
  | [], _ => none
  | (k', v') :: rest, k => if k' = k then some v' else getKey rest k

/-- `deep_update(base, update)`:

```
for k, v in update.items():
    if isinstance(v, dict) and k in base and isinstance(base[k], dict):
        deep_update(base[k], v)
    else:
        base[k] = v
```

The in-place mutation of `base[k]` is modelled by `setKey`. -/
def deep_update (base : List (String × JValue)) :
    List (String × JValue) → List (String × JValue)
  | [] => base
  | (k, v) :: rest =>
      match v, getKey base k with
      | JValue.obj u, some (JValue.obj bsub) =>
          deep_update (setKey base k (JValue.obj (deep_update bsub u))) rest
      | JValue.null, _ => deep_update (setKey base k JValue.null) rest
      | JValue.bool b, _ => deep_update (setKey base k (JValue.bool b)) rest
      | JValue.num q, _ => deep_update (setKey base k (JValue.num q)) rest
      | JValue.str s, _ => deep_update (setKey base k (JValue.str s)) rest
      | JValue.arr l, _ => deep_update (setKey base k (JValue.arr l)) rest
      | JValue.obj u, none => deep_update (setKey base k (JValue.obj u)) rest
      | JValue.obj u, some JValue.null => deep_update (setKey base k (JValue.obj u)) rest
      | JValue.obj u, some (JValue.bool _) => deep_update (setKey base k (JValue.obj u)) rest
      | JValue.obj u, some (JValue.num _) => deep_update (setKey base k (JValue.obj u)) rest
      | JValue.obj u, some (JValue.str _) => deep_update (setKey base k (JValue.obj u)) rest
      | JValue.obj u, some (JValue.arr _) => deep_update (setKey base k (JValue.obj u)) rest

/-! ### Step 2 of `cmd_convert` (src/open-vtt.py, lines 841-849) and
`extract_subtitles` (lines 439-455) -/

/-- The placeholder document written for silent inputs. -/
def silentVtt : String := "WEBVTT\n\nNOTE This video has no audio track (silent film).\n\n"

/-- The WebVTT header line. -/
def vttHeaderLine : String := "WEBVTT\n"

/-- The placeholder note comment line. -/
def silentNoteLine : String := "NOTE This video has no audio track (silent film).\n"

/-- Success condition of `extract_subtitles`: ffmpeg exited 0 and the
output file exists (`code == 0 and output_path.exists()`). -/
def extract_subtitles_ok (code : ℤ) (outExists : Bool) : Bool :=
  decide (code = 0) && outExists

/-- Claim C6's reading of extraction success: the output file exists and is
non-empty. -/
def claimC6_success (outExists : Bool) (outSizeBytes : ℕ) : Bool :=
  outExists && decide (0 < outSizeBytes)

/-- Outcome of step 2 of `cmd_convert`: the placeholder content written by
the pipeline itself (if any), the reported success flag, and whether
embedded-subtitle extraction and the transcription engine were invoked. -/
structure Step2Result where
  content : Option String
  success : Bool
  invokedExtract : Bool
  invokedTranscribe : Bool
  deriving DecidableEq

/-- Step 2 of `cmd_convert`:

```
if not metadata.get("has_audio"):
    f.write("WEBVTT\n\nNOTE This video has no audio track (silent film).\n\n")
    success = True
elif metadata.get("has_subtitles"):
    success = extract_subtitles(video_path, subtitles_path)
    if not success:
        success = transcribe_with_whisper(video_path, subtitles_path)
else:
    success = transcribe_with_whisper(video_path, subtitles_path)
```

`extractCode`/`extractOutExists` describe what `extract_subtitles` observes
of its ffmpeg run, `transcribeOk` the result of `transcribe_with_whisper`. -/
def step2 (has_audio has_subtitles : Bool) (extractCode : ℤ)
    (extractOutExists : Bool) (transcribeOk : Bool) : Step2Result :=
  if !has_audio then ⟨some silentVtt, true, false, false⟩
  else if has_subtitles then
    if extract_subtitles_ok extractCode extractOutExists then ⟨none, true, true, false⟩
    else ⟨none, transcribeOk, true, true⟩
  else ⟨none, transcribeOk, false, true⟩

/-! ### `get_output_path` (src/open-vtt.py, lines 774-785)

Filenames are relative to the target directory; the filesystem is the
predicate `fsExists` on candidate indices.  The `while` loop is modelled
with explicit fuel (`none` = the loop has not terminated within `fuel`
iterations). -/

/-- The candidate sequence `base.ext, base-1.ext, base-2.ext, ...`. -/
def candidateName (base ext : String) : ℕ → String
  | 0 => base ++ "." ++ ext
  | n + 1 => base ++ "-" ++ toString (n + 1) ++ "." ++ ext

/-- The `while output.exists()` loop, over candidate indices. -/
def get_output_path_loop (fsExists : ℕ → Bool) : ℕ → ℕ → Option ℕ
  | 0, _ => none
  | fuel + 1, n => if fsExists n then get_output_path_loop fsExists fuel (n + 1) else some n

/-- `get_output_path`: `if specified: return Path(specified)` is a Python
truthiness test, so a truthy (non-empty) specified path is returned as-is,
while `None` and the empty string fall through to the first free candidate
name. -/
def get_output_path (specified : Option String) (fsExists : ℕ → Bool) (fuel : ℕ)
    (base ext : String) : Option String :=
  match specified with
  | some s =>
      if s.isEmpty then (get_output_path_loop fsExists fuel 0).map (candidateName base ext)
      else some s
  | none => (get_output_path_loop fsExists fuel 0).map (candidateName base ext)

/-! ### HTTP request-path resolution (src/open-vtt.py, lines 320-324 and
337-355)

`translate_path` receives the already URL-decoded request path (the
`unquote` call).  `mediaExists` tells whether a (relative) name exists
under the media directory. -/

/-- Where a request is served from: a file under the media directory, or
the default `SimpleHTTPRequestHandler` static resolution rooted at the
application directory. -/
inductive Resolved where
  | media (rel : List Char)
  | appStatic (path : List Char)
  deriving DecidableEq

/-- The `"/media/"` prefix. -/
def mediaPrefix : List Char := "/media/".toList

/-- The `".html"` suffix. -/
def htmlSuffix : List Char := ".html".toList

/-- Python `path.replace("/media/", "")`: remove every (non-overlapping,
left-to-right) occurrence of `"/media/"`. -/
def stripMediaOcc : List Char → List Char
  | '/' :: 'm' :: 'e' :: 'd' :: 'i' :: 'a' :: '/' :: rest => stripMediaOcc rest
  | c :: rest => c :: stripMediaOcc rest
  | [] => []

/-- Python `path.lstrip('/')`. -/
def lstripSlash (l : List Char) : List Char := l.dropWhile (· = '/')

/-- `OpenVTTHandler.translate_path` after URL decoding. -/
def translate_path (mediaExists : List Char → Bool) (path : List Char) : Resolved :=
  if mediaPrefix.isPrefixOf path then Resolved.media (stripMediaOcc path)
  else
    if mediaExists (lstripSlash path) && !(htmlSuffix.isSuffixOf (lstripSlash path)) then
      Resolved.media (lstripSlash path)
    else Resolved.appStatic path

/-- `OpenVTTHandler.do_GET`: requests for `"/"` are rewritten to the player
page before resolution. -/
def resolveGet (mediaExists : List Char → Bool) (path : List Char) : Resolved :=
  translate_path mediaExists
    (if path = "/".toList then "/player.html".toList else path)

/-- Claim C9's description of resolution: `/` to the player page, a
`/media/` prefix to the remaining suffix under the media directory,
everything else to default static resolution. -/
def claimC9_resolve (_mediaExists : List Char → Bool) (path : List Char) : Resolved :=
  if path = "/".toList then Resolved.appStatic ("/player.html".toList)
  else if mediaPrefix.isPrefixOf path then Resolved.media (path.drop 7)
  else Resolved.appStatic path

/-- The amended description of resolution: `/` goes to the player page;
a `/media/`-prefixed path is served from the media directory under the
name obtained by deleting every occurrence of `/media/`; any other path
whose `/`-stripped name exists under the media directory and does not end
in `.html` is also served from the media directory; all remaining paths
fall back to default static resolution. -/
def claimC9_amended (mediaExists : List Char → Bool) (path : List Char) : Resolved :=
  if path = "/".toList then Resolved.appStatic ("/player.html".toList)
  else if mediaPrefix.isPrefixOf path then Resolved.media (stripMediaOcc path)
  else if mediaExists (lstripSlash path) && !(htmlSuffix.isSuffixOf (lstripSlash path)) then
    Resolved.media (lstripSlash path)
  else Resolved.appStatic path

/-! ### Helper lemmas for `to_vtt_time` -/

lemma pyInt_of_nonneg {q : ℚ} (h : 0 ≤ q) : pyInt q = ⌊q⌋ := if_pos h

lemma pyRoundHalfEven_nonneg {q : ℚ} (hq : 0 ≤ q) : 0 ≤ pyRoundHalfEven q := by
  have h : (0:ℤ) ≤ ⌊q⌋ := Int.floor_nonneg.mpr hq
  unfold pyRoundHalfEven
  split_ifs <;> omega

lemma td_total_seconds_nonneg {q : ℚ} (hq : 0 ≤ q) : 0 ≤ td_total_seconds q := by
  unfold td_total_seconds
  have h := pyRoundHalfEven_nonneg (q := q * 1000000) (by positivity)
  have : (0:ℚ) ≤ (pyRoundHalfEven (q * 1000000) : ℚ) := by exact_mod_cast h
  positivity

lemma vttTotalSeconds_nonneg {q : ℚ} (hq : 0 ≤ q) : 0 ≤ vttTotalSeconds q := by
  rw [vttTotalSeconds, pyInt_of_nonneg (td_total_seconds_nonneg hq)]
  exact Int.floor_nonneg.mpr (td_total_seconds_nonneg hq)

lemma vttMilliseconds_floor {q : ℚ} (hq : 0 ≤ q) :
    vttMilliseconds q = ⌊(q - (⌊q⌋ : ℚ)) * 1000⌋ := by
  rw [vttMilliseconds, pyInt_of_nonneg hq, pyInt_of_nonneg]
  have h0 : (0:ℚ) ≤ q - (⌊q⌋ : ℚ) := by
    have := Int.fract_nonneg q
    rwa [Int.fract] at this
  positivity

lemma vttMilliseconds_bounds {q : ℚ} (hq : 0 ≤ q) :
    0 ≤ vttMilliseconds q ∧ vttMilliseconds q < 1000 := by
  rw [vttMilliseconds_floor hq]
  have h0 : (0:ℚ) ≤ q - (⌊q⌋ : ℚ) := by
    have := Int.fract_nonneg q
    rwa [Int.fract] at this
  have h1 : q - (⌊q⌋ : ℚ) < 1 := by
    have := Int.fract_lt_one q
    rwa [Int.fract] at this
  constructor
  · exact Int.floor_nonneg.mpr (by positivity)
  · rw [Int.floor_lt]
    push_cast
    nlinarith

/-- Evaluation helper: `to_vtt_time` from precomputed whole-second and
millisecond values. -/
lemma to_vtt_time_eval {q : ℚ} {t m : ℤ} (h1 : vttTotalSeconds q = t)
    (h2 : vttMilliseconds q = m) :
    to_vtt_time q =
      fmtPad2 (Int.fdiv t 3600) ++ ":" ++ fmtPad2 (Int.fdiv (Int.fmod t 3600) 60) ++ ":" ++
        fmtPad2 (Int.fmod (Int.fmod t 3600) 60) ++ "." ++ fmtPad3 m := by
  simp only [to_vtt_time, vttHours, vttMinutes, vttSecs, vttRemainder, h1, h2]

lemma vttTotalSeconds_three_halves : vttTotalSeconds (mkRat 3 2) = 1 := by
  simp only [vttTotalSeconds, td_total_seconds, pyRoundHalfEven, pyInt, Rat.mkRat_eq_div]
  norm_num

lemma vttMilliseconds_three_halves : vttMilliseconds (mkRat 3 2) = 500 := by
  simp only [vttMilliseconds, pyInt, Rat.mkRat_eq_div]
  norm_num

lemma vttTotalSeconds_c3661 : vttTotalSeconds 3661 = 3661 := by
  simp only [vttTotalSeconds, td_total_seconds, pyRoundHalfEven, pyInt]
  norm_num

lemma vttMilliseconds_c3661 : vttMilliseconds 3661 = 0 := by
  simp only [vttMilliseconds, pyInt]
  norm_num

lemma vttTotalSeconds_zero : vttTotalSeconds 0 = 0 := by
  simp only [vttTotalSeconds, td_total_seconds, pyRoundHalfEven, pyInt]
  norm_num

lemma vttMilliseconds_zero : vttMilliseconds 0 = 0 := by
  simp only [vttMilliseconds, pyInt]
  norm_num

lemma vttTotalSeconds_90123 : vttTotalSeconds (mkRat 90123 1000) = 90 := by
  simp only [vttTotalSeconds, td_total_seconds, pyRoundHalfEven, pyInt, Rat.mkRat_eq_div]
  norm_num

lemma vttMilliseconds_90123 : vttMilliseconds (mkRat 90123 1000) = 123 := by
  simp only [vttMilliseconds, pyInt, Rat.mkRat_eq_div]
  norm_num

/-! ### Helper lemmas for the VTT extraction -/

lemma markerWEBVTT_chars : markerWEBVTT = 'W' :: 'E' :: 'B' :: 'V' :: 'T' :: 'T' :: [] := rfl

lemma fenceTicks_chars : fenceTicks = '\x60' :: '\x60' :: '\x60' :: [] := rfl

lemma firstOccAux_some_prefix (sub : List Char) :
    ∀ (l : List Char) (k : ℕ), firstOccAux sub l = some k →
      sub.isPrefixOf (l.drop k) = true := by
  intro l
  induction l with
  | nil =>
      intro k h
      by_cases he : sub.isEmpty
      · simp only [firstOccAux, if_pos he, Option.some.injEq] at h
        subst h
        simp only [List.drop_nil]
        rw [List.isEmpty_iff] at he
        simp [he]
      · simp [firstOccAux, he] at h
  | cons c rest ih =>
      intro k h
      by_cases hp : sub.isPrefixOf (c :: rest) = true
      · simp only [firstOccAux, if_pos hp, Option.some.injEq] at h
        subst h
        simpa using hp
      · simp only [firstOccAux, if_neg hp, Option.map_eq_some'] at h
        obtain ⟨a, ha, hk⟩ := h
        subst hk
        rw [List.drop_succ_cons]
        exact ih a ha

lemma pyFind_found {s sub : List Char} {start : ℕ} (h : pyFind s sub start ≠ -1) :
    (start : ℤ) ≤ pyFind s sub start ∧
      sub.isPrefixOf (s.drop (pyFind s sub start).toNat) = true := by
  rcases hfo : firstOccAux sub (s.drop start) with _ | k
  · exact absurd (by simp [pyFind, hfo]) h
  · have hv : pyFind s sub start = (start : ℤ) + k := by simp [pyFind, hfo]
    have htn : (pyFind s sub start).toNat = start + k := by omega
    refine ⟨by omega, ?_⟩
    rw [htn, ← List.drop_drop]
    exact firstOccAux_some_prefix sub _ k hfo

lemma pyContains_found {s sub : List Char} (h : pyContains s sub = true) :
    0 ≤ pyFind s sub 0 ∧ pyFind s sub 0 ≠ -1 ∧
      sub.isPrefixOf (s.drop (pyFind s sub 0).toNat) = true := by
  rw [pyContains, Option.isSome_iff_exists] at h
  obtain ⟨k, hk⟩ := h
  have hne : pyFind s sub 0 ≠ -1 := by
    simp [pyFind, List.drop_zero, hk]
  obtain ⟨h1, h2⟩ := pyFind_found hne
  exact ⟨by exact_mod_cast h1, hne, h2⟩

lemma marker_fence_not_both {d : List Char}
    (h1 : markerWEBVTT.isPrefixOf d = true) (h2 : fenceTicks.isPrefixOf d = true) :
    False := by
  rw [List.isPrefixOf_iff_prefix] at h1 h2
  obtain ⟨t1, ht1⟩ := h1
  obtain ⟨t2, ht2⟩ := h2
  rw [← ht1, markerWEBVTT_chars, fenceTicks_chars] at ht2
  simp only [List.cons_append, List.cons.injEq] at ht2
  exact absurd ht2.1 (by decide)

/-! ### Helper lemmas for `downsample_video` -/

lemma downsample_accept_iff {maxSize : ℚ} {a : AttemptResult} :
    downsample_accept maxSize a = true ↔
      (a.code = 0 ∧ a.outExists = true) ∧ a.outSizeMB ≤ maxSize := by
  simp [downsample_accept, and_assoc]

lemma downsample_go_spec (maxSize : ℚ) (l : List AttemptResult) :
    ∀ n : ℕ,
      (∀ j, l.findIdx? (downsample_accept maxSize) n = some j →
        downsample_go maxSize l n = (DsResult.downsampled j, j + 1)) ∧
      (l.findIdx? (downsample_accept maxSize) n = none →
        downsample_go maxSize l n = (DsResult.failed, n + l.length)) := by
  induction l with
  | nil =>
      intro n
      exact ⟨fun j h => by simp at h, fun _ => by simp [downsample_go]⟩
  | cons a rest ih =>
      intro n
      by_cases hacc : downsample_accept maxSize a = true
      · obtain ⟨h1, h2⟩ := downsample_accept_iff.mp hacc
        constructor
        · intro j hj
          rw [List.findIdx?_cons, if_pos hacc] at hj
          obtain rfl : n = j := by simpa using hj
          simp [downsample_go, h1.1, h1.2, h2]
        · intro hn
          rw [List.findIdx?_cons, if_pos hacc] at hn
          simp at hn
      · have hacc' : downsample_accept maxSize a = false := by simpa using hacc
        have hgo : downsample_go maxSize (a :: rest) n = downsample_go maxSize rest (n + 1) := by
          by_cases h1 : a.code = 0 ∧ a.outExists = true
          · have h2 : ¬ a.outSizeMB ≤ maxSize := fun h2 =>
              hacc (downsample_accept_iff.mpr ⟨h1, h2⟩)
            simp [downsample_go, h1, h2]
          · simp [downsample_go, h1]
        constructor
        · intro j hj
          rw [List.findIdx?_cons, if_neg (by simp [hacc'])] at hj
          rw [hgo]
          exact (ih (n + 1)).1 j hj
        · intro hn
          rw [List.findIdx?_cons, if_neg (by simp [hacc'])] at hn
          rw [hgo, (ih (n + 1)).2 hn, List.length_cons]
          exact congrArg _ (by omega)

/-! ### Helper lemmas for `deep_update` -/

lemma getKey_setKey_self (b : List (String × JValue)) (k : String) (v : JValue) :
    getKey (setKey b k v) k = some v := by
  induction b with
  | nil => simp [setKey, getKey]
  | cons p rest ih =>
      obtain ⟨k', v'⟩ := p
      by_cases h : k' = k
      · simp [setKey, getKey, h]
      · simp [setKey, getKey, h, ih]

lemma getKey_setKey_ne (b : List (String × JValue)) (k' k : String) (v : JValue)
    (h : k' ≠ k) : getKey (setKey b k' v) k = getKey b k := by
  induction b with
  | nil => simp [setKey, getKey, h]
  | cons p rest ih =>
      obtain ⟨k0, v0⟩ := p
      by_cases h2 : k0 = k'
      · subst h2
        simp [setKey, getKey, h]
      · simp [setKey, getKey, h2, ih]

lemma deep_update_cons_step (k0 : String) (v0 : JValue)
    (rest base : List (String × JValue)) (k : String) (hne : k0 ≠ k) :
    ∃ b', deep_update base ((k0, v0) :: rest) = deep_update b' rest ∧
      getKey b' k = getKey base k := by
  cases v0 with
  | null =>
      exact ⟨setKey base k0 JValue.null, by simp [deep_update],
        getKey_setKey_ne _ _ _ _ hne⟩
  | bool b =>
      exact ⟨setKey base k0 (JValue.bool b), by simp [deep_update],
        getKey_setKey_ne _ _ _ _ hne⟩
  | num q =>
      exact ⟨setKey base k0 (JValue.num q), by simp [deep_update],
        getKey_setKey_ne _ _ _ _ hne⟩
  | str s =>
      exact ⟨setKey base k0 (JValue.str s), by simp [deep_update],
        getKey_setKey_ne _ _ _ _ hne⟩
  | arr l =>
      exact ⟨setKey base k0 (JValue.arr l), by simp [deep_update],
        getKey_setKey_ne _ _ _ _ hne⟩
  | obj u =>
      rcases hb : getKey base k0 with _ | bv
      · exact ⟨setKey base k0 (JValue.obj u), by simp [deep_update, hb],
          getKey_setKey_ne _ _ _ _ hne⟩
      · cases bv with
        | obj bsub =>
            exact ⟨setKey base k0 (JValue.obj (deep_update bsub u)),
              by simp [deep_update, hb], getKey_setKey_ne _ _ _ _ hne⟩
        | null =>
            exact ⟨setKey base k0 (JValue.obj u), by simp [deep_update, hb],
              getKey_setKey_ne _ _ _ _ hne⟩
        | bool b =>
            exact ⟨setKey base k0 (JValue.obj u), by simp [deep_update, hb],
              getKey_setKey_ne _ _ _ _ hne⟩
        | num q =>
            exact ⟨setKey base k0 (JValue.obj u), by simp [deep_update, hb],
              getKey_setKey_ne _ _ _ _ hne⟩
        | str s =>
            exact ⟨setKey base k0 (JValue.obj u), by simp [deep_update, hb],
              getKey_setKey_ne _ _ _ _ hne⟩
        | arr l =>
            exact ⟨setKey base k0 (JValue.obj u), by simp [deep_update, hb],
              getKey_setKey_ne _ _ _ _ hne⟩

lemma deep_update_cons_head (k0 : String) (v0 : JValue)
    (rest base : List (String × JValue))
    (hcond : ∀ u, v0 = JValue.obj u → ∀ bsub, getKey base k0 ≠ some (JValue.obj bsub)) :
    ∃ b', deep_update base ((k0, v0) :: rest) = deep_update b' rest ∧
      getKey b' k0 = some v0 := by
  cases v0 with
  | null =>
      exact ⟨setKey base k0 JValue.null, by simp [deep_update],
        getKey_setKey_self _ _ _⟩
  | bool b =>
      exact ⟨setKey base k0 (JValue.bool b), by simp [deep_update],
        getKey_setKey_self _ _ _⟩
  | num q =>
      exact ⟨setKey base k0 (JValue.num q), by simp [deep_update],
        getKey_setKey_self _ _ _⟩
  | str s =>
      exact ⟨setKey base k0 (JValue.str s), by simp [deep_update],
        getKey_setKey_self _ _ _⟩
  | arr l =>
      exact ⟨setKey base k0 (JValue.arr l), by simp [deep_update],
        getKey_setKey_self _ _ _⟩
  | obj u =>
      rcases hb : getKey base k0 with _ | bv
      · exact ⟨setKey base k0 (JValue.obj u), by simp [deep_update, hb],
          getKey_setKey_self _ _ _⟩
      · cases bv with
        | obj bsub => exact absurd hb (hcond u rfl bsub)
        | null =>
            exact ⟨setKey base k0 (JValue.obj u), by simp [deep_update, hb],
              getKey_setKey_self _ _ _⟩
        | bool b =>
            exact ⟨setKey base k0 (JValue.obj u), by simp [deep_update, hb],
              getKey_setKey_self _ _ _⟩
        | num q =>
            exact ⟨setKey base k0 (JValue.obj u), by simp [deep_update, hb],
              getKey_setKey_self _ _ _⟩
        | str s =>
            exact ⟨setKey base k0 (JValue.obj u), by simp [deep_update, hb],
              getKey_setKey_self _ _ _⟩
        | arr l =>
            exact ⟨setKey base k0 (JValue.obj u), by simp [deep_update, hb],
              getKey_setKey_self _ _ _⟩

lemma getKey_deep_update_of_not_mem (update : List (String × JValue)) :
    ∀ (base : List (String × JValue)) (k : String), k ∉ update.map Prod.fst →
      getKey (deep_update base update) k = getKey base k := by
  induction update with
  | nil => intro base k _; simp [deep_update]
  | cons p rest ih =>
      obtain ⟨k0, v0⟩ := p
      intro base k hk
      simp only [List.map_cons, List.mem_cons] at hk
      push_neg at hk
      obtain ⟨hk0, hkrest⟩ := hk
      obtain ⟨b', hb', hg⟩ := deep_update_cons_step k0 v0 rest base k (fun h => hk0 h.symm)
      rw [hb', ih b' k hkrest, hg]

/-- Concrete preset outcomes for the C3 witness: the first attempt fails,
the second succeeds under the ceiling, the third would also succeed. -/
def dsAttemptsEx : List AttemptResult :=
  [⟨1, false, 40⟩, ⟨0, true, 20⟩, ⟨0, true, 10⟩]

/-! ### Helper lemma for `get_output_path` -/

lemma get_output_path_loop_spec (fsExists : ℕ → Bool) (N : ℕ)
    (hN : ∀ i, i < N → fsExists i = true) (hNfree : fsExists N = false) :
    ∀ (fuel n : ℕ), n ≤ N → N < n + fuel →
      get_output_path_loop fsExists fuel n = some N := by
  intro fuel
  induction fuel with
  | zero => intro n h1 h2; omega
  | succ f ihf =>
      intro n h1 h2
      by_cases h : n < N
      · rw [get_output_path_loop, if_pos (hN n h)]
        exact ihf (n + 1) (by omega) (by omega)
      · have hn : n = N := by omega
        subst hn
        rw [get_output_path_loop, if_neg (by simp [hNfree])]

/-! ### Claim theorems -/

/-- C1: `to_vtt_time`, applied to a non-negative seconds value, returns the
fixed-width string `HH:MM:SS.mmm` (each field zero-padded, minutes and
seconds in `[0,60)`), with the millisecond component obtained by truncating
the fractional part times 1000 toward zero; in particular
`to_vtt_time 0 = "00:00:00.000"`, `to_vtt_time 1.5 = "00:00:01.500"`,
`to_vtt_time 3661 = "01:01:01.000"`, `to_vtt_time 90.123 = "00:01:30.123"`. -/
theorem to_vtt_time_spec (q : ℚ) (hq : 0 ≤ q) :
    to_vtt_time q =
      fmtPad2 (vttHours q) ++ ":" ++ fmtPad2 (vttMinutes q) ++ ":" ++
        fmtPad2 (vttSecs q) ++ "." ++ fmtPad3 (vttMilliseconds q) ∧
    0 ≤ vttHours q ∧
    (0 ≤ vttMinutes q ∧ vttMinutes q < 60) ∧
    (0 ≤ vttSecs q ∧ vttSecs q < 60) ∧
    (0 ≤ vttMilliseconds q ∧ vttMilliseconds q < 1000) ∧
    vttMilliseconds q = ⌊(q - (⌊q⌋ : ℚ)) * 1000⌋ ∧
    to_vtt_time 0 = "00:00:00.000" ∧
    to_vtt_time (mkRat 3 2) = "00:00:01.500" ∧
    to_vtt_time 3661 = "01:01:01.000" ∧
    to_vtt_time (mkRat 90123 1000) = "00:01:30.123" := by
  have ht : 0 ≤ vttTotalSeconds q := vttTotalSeconds_nonneg hq
  have hrem0 : 0 ≤ vttRemainder q := Int.fmod_nonneg' _ (by norm_num)
  have hrem1 : vttRemainder q < 3600 := Int.fmod_lt_of_pos _ (by norm_num)
  refine ⟨rfl, ?_, ⟨?_, ?_⟩, ⟨?_, ?_⟩, vttMilliseconds_bounds hq,
    vttMilliseconds_floor hq, ?_, ?_, ?_, ?_⟩
  · rw [vttHours, Int.fdiv_eq_ediv _ (by norm_num)]
    exact Int.ediv_nonneg ht (by norm_num)
  · rw [vttMinutes, Int.fdiv_eq_ediv _ (by norm_num)]
    exact Int.ediv_nonneg hrem0 (by norm_num)
  · rw [vttMinutes, Int.fdiv_eq_ediv _ (by norm_num)]
    exact Int.ediv_lt_of_lt_mul (by norm_num) (by omega)
  · exact Int.fmod_nonneg' _ (by norm_num)
  · exact Int.fmod_lt_of_pos _ (by norm_num)
  · rw [to_vtt_time_eval vttTotalSeconds_zero vttMilliseconds_zero]
    decide
  · rw [to_vtt_time_eval vttTotalSeconds_three_halves vttMilliseconds_three_halves]
    decide
  · rw [to_vtt_time_eval vttTotalSeconds_c3661 vttMilliseconds_c3661]
    decide
  · rw [to_vtt_time_eval vttTotalSeconds_90123 vttMilliseconds_90123]
    decide

/-- C1 witness: the specification instantiated at 90.123 seconds. -/
theorem to_vtt_time_spec_witness :
    to_vtt_time (mkRat 90123 1000) =
      fmtPad2 (vttHours (mkRat 90123 1000)) ++ ":" ++
        fmtPad2 (vttMinutes (mkRat 90123 1000)) ++ ":" ++
        fmtPad2 (vttSecs (mkRat 90123 1000)) ++ "." ++
        fmtPad3 (vttMilliseconds (mkRat 90123 1000)) ∧
    0 ≤ vttHours (mkRat 90123 1000) ∧
    (0 ≤ vttMinutes (mkRat 90123 1000) ∧ vttMinutes (mkRat 90123 1000) < 60) ∧
    (0 ≤ vttSecs (mkRat 90123 1000) ∧ vttSecs (mkRat 90123 1000) < 60) ∧
    (0 ≤ vttMilliseconds (mkRat 90123 1000) ∧ vttMilliseconds (mkRat 90123 1000) < 1000) ∧
    vttMilliseconds (mkRat 90123 1000) =
      ⌊((mkRat 90123 1000) - (⌊(mkRat 90123 1000 : ℚ)⌋ : ℚ)) * 1000⌋ ∧
    to_vtt_time 0 = "00:00:00.000" ∧
    to_vtt_time (mkRat 3 2) = "00:00:01.500" ∧
    to_vtt_time 3661 = "01:01:01.000" ∧
    to_vtt_time (mkRat 90123 1000) = "00:01:30.123" :=
  to_vtt_time_spec (mkRat 90123 1000) (by decide)

/-- C8: `run_command` maps a missing executable to the failure result
`(-1, "", "Command not found: ...")` and a timeout (after the fixed 3600
second limit) to `(-2, "", "Command timed out")`, both with first component
different from the return code 0 of every successful completion. -/
theorem run_command_failure_results :
    RUN_COMMAND_TIMEOUT = 3600 ∧
    (∀ exe args, run_command (exe :: args) ProcOutcome.fileNotFound =
      (-1, "", "Command not found: " ++ exe)) ∧
    (∀ cmd, run_command cmd ProcOutcome.timedOut = (-2, "", "Command timed out")) ∧
    (∀ cmd out err,
      (run_command cmd (ProcOutcome.completed 0 out err)).1 ≠
        (run_command cmd ProcOutcome.fileNotFound).1 ∧
      (run_command cmd (ProcOutcome.completed 0 out err)).1 ≠
        (run_command cmd ProcOutcome.timedOut).1) := by
  exact ⟨rfl, fun exe args => rfl, fun cmd => rfl,
    fun cmd out err => ⟨by simp [run_command], by simp [run_command]⟩⟩

/-- C2 counterexample: the claim describes the extraction result as the raw
span from the marker to the terminator, but the code strips surrounding
whitespace from that span: on `"WEBVTT x\n```"` the code returns
`"WEBVTT x"` while the claimed span is `"WEBVTT x\n"`. -/
theorem gemini_extract_vtt_ne_claimC2 :
    gemini_extract_vtt ("WEBVTT x\n```".toList) ≠
      claimC2_extract ("WEBVTT x\n```".toList) := by decide

/-- C2 amended: for every response text, if the text contains the marker,
the extraction in `call_gemini` returns the span from the first marker
occurrence up to (excluding) the next terminator after it — or to the end
of the text when no terminator follows — with leading and trailing
whitespace stripped; if the marker is absent, the input is returned
unchanged. -/
theorem gemini_extract_vtt_spec (t : List Char) :
    gemini_extract_vtt t =
      if pyContains t markerWEBVTT then pyStrip (claimC2_extract t) else t := by
  by_cases hc : pyContains t markerWEBVTT
  · rw [if_pos hc]
    unfold gemini_extract_vtt claimC2_extract
    rw [if_pos hc, if_pos hc]
    obtain ⟨hvs0, hvsne, hvsp⟩ := pyContains_found hc
    by_cases h1 : pyFind t fenceTicks (pyFind t markerWEBVTT 0).toNat = -1
    · rw [if_neg (by omega), if_pos h1]
    · obtain ⟨hge, hfp⟩ := pyFind_found h1
      have hne : pyFind t fenceTicks (pyFind t markerWEBVTT 0).toNat ≠
          pyFind t markerWEBVTT 0 := by
        intro he
        rw [he] at hfp
        exact marker_fence_not_both hvsp hfp
      rw [if_pos (by omega), if_neg h1]
  · simp [gemini_extract_vtt, claimC2_extract, hc]

/-- C3: `downsample_video` returns the original input with no ffmpeg
invocation when the input is at most the ceiling; otherwise it tries the
presets strictly in order, returns the output of the first preset whose
transcode succeeds with size at most the ceiling after exactly that many
invocations (attempting no later preset, continuing past failed or
oversized attempts), and fails after trying every preset when none
satisfies the ceiling. -/
theorem downsample_video_spec (sizeMB maxSize : ℚ) (attempts : List AttemptResult) :
    (sizeMB ≤ maxSize →
      downsample_video sizeMB maxSize attempts = (DsResult.original, 0)) ∧
    (¬ sizeMB ≤ maxSize →
      (∀ j, attempts.findIdx? (downsample_accept maxSize) = some j →
        downsample_video sizeMB maxSize attempts = (DsResult.downsampled j, j + 1)) ∧
      (attempts.findIdx? (downsample_accept maxSize) = none →
        downsample_video sizeMB maxSize attempts = (DsResult.failed, attempts.length))) := by
  refine ⟨fun h => by simp [downsample_video, h], fun h => ⟨fun j hj => ?_, fun hn => ?_⟩⟩
  · rw [downsample_video, if_neg h]
    exact (downsample_go_spec maxSize attempts 0).1 j hj
  · rw [downsample_video, if_neg h]
    simpa using (downsample_go_spec maxSize attempts 0).2 hn

/-- C3 witness: with a 25 MB ceiling, a 30 MB input and preset outcomes
`[failed, ok 20MB, ok 10MB]`, the second preset's output is returned after
two invocations; a 20 MB input is returned unchanged with none. -/
theorem downsample_video_spec_witness :
    ¬ (30 : ℚ) ≤ 25 ∧
    downsample_video 30 25 dsAttemptsEx = (DsResult.downsampled 1, 2) ∧
    (20 : ℚ) ≤ 25 ∧
    downsample_video 20 25 dsAttemptsEx = (DsResult.original, 0) :=
  ⟨by decide, ((downsample_video_spec 30 25 dsAttemptsEx).2 (by decide)).1 1 (by decide),
   by decide, (downsample_video_spec 20 25 dsAttemptsEx).1 (by decide)⟩

/-- C4: the configuration merge is per-key and recursive only into nested
mappings: at every key absent from the override, the default survives; at a
key where both sides are mapping-typed, the values are merged recursively;
at every other overridden key (lists included), the override value replaces
the default wholesale. -/
theorem deep_update_spec (update : List (String × JValue)) :
    ∀ (base : List (String × JValue)), (update.map Prod.fst).Nodup →
      ∀ k : String,
        (getKey update k = none →
          getKey (deep_update base update) k = getKey base k) ∧
        (∀ u bsub, getKey update k = some (JValue.obj u) →
          getKey base k = some (JValue.obj bsub) →
          getKey (deep_update base update) k = some (JValue.obj (deep_update bsub u))) ∧
        (∀ v, getKey update k = some v →
          (∀ u, v = JValue.obj u → ∀ bsub, getKey base k ≠ some (JValue.obj bsub)) →
          getKey (deep_update base update) k = some v) := by
  induction update with
  | nil =>
      intro base _ k
      refine ⟨fun _ => by simp [deep_update], ?_, ?_⟩
      · intro u bsub h _
        simp [getKey] at h
      · intro v h _
        simp [getKey] at h
  | cons p rest ih =>
      obtain ⟨k0, v0⟩ := p
      intro base hnd k
      simp only [List.map_cons, List.nodup_cons] at hnd
      obtain ⟨hk0notin, hndrest⟩ := hnd
      by_cases hk : k0 = k
      · subst hk
        have hup : getKey ((k0, v0) :: rest) k0 = some v0 := by simp [getKey]
        refine ⟨?_, ?_, ?_⟩
        · intro h
          rw [hup] at h
          cases h
        · intro u bsub hu hb
          rw [hup, Option.some.injEq] at hu
          subst hu
          have hstep : deep_update base ((k0, JValue.obj u) :: rest) =
              deep_update (setKey base k0 (JValue.obj (deep_update bsub u))) rest := by
            simp [deep_update, hb]
          rw [hstep, getKey_deep_update_of_not_mem rest _ k0 hk0notin,
            getKey_setKey_self]
        · intro v hv hcond
          rw [hup, Option.some.injEq] at hv
          subst hv
          obtain ⟨b', hb', hg⟩ := deep_update_cons_head k0 v0 rest base hcond
          rw [hb', getKey_deep_update_of_not_mem rest b' k0 hk0notin, hg]
      · obtain ⟨b', hb', hg⟩ := deep_update_cons_step k0 v0 rest base k hk
        have hup : getKey ((k0, v0) :: rest) k = getKey rest k := by
          simp [getKey, hk]
        obtain ⟨ih1, ih2, ih3⟩ := ih b' hndrest k
        refine ⟨?_, ?_, ?_⟩
        · intro h
          rw [hup] at h
          rw [hb', ih1 h, hg]
        · intro u bsub hu hbase
          rw [hup] at hu
          rw [hb']
          exact ih2 u bsub hu (hg.trans hbase)
        · intro v hv hcond
          rw [hup] at hv
          rw [hb']
          exact ih3 v hv fun u hu bsub h => hcond u hu bsub (hg.symm.trans h)

/-- C4 witness: overriding the single leaf `fps` inside section `video` of
a two-section default preserves the sibling leaf `max_size_mb` and the
other section `files`, while replacing the overridden leaf; a list-valued
override replaces the default list wholesale. -/
theorem deep_update_spec_witness :
    ((([("video", JValue.obj [("fps", JValue.num 5)]),
        ("presets", JValue.arr [JValue.num 1])] :
          List (String × JValue)).map Prod.fst).Nodup ∧
      getKey ([("video", JValue.obj [("fps", JValue.num 5)]),
        ("presets", JValue.arr [JValue.num 1])] :
          List (String × JValue)) "video" =
        some (JValue.obj [("fps", JValue.num 5)]) ∧
      getKey ([("video", JValue.obj [("max_size_mb", JValue.num 25),
          ("fps", JValue.num 30)]),
        ("presets", JValue.arr [JValue.num 1, JValue.num 2]),
        ("files", JValue.str "p")] : List (String × JValue)) "video" =
        some (JValue.obj [("max_size_mb", JValue.num 25), ("fps", JValue.num 30)])) ∧
    getKey
      (deep_update
        [("video", JValue.obj [("max_size_mb", JValue.num 25), ("fps", JValue.num 30)]),
         ("presets", JValue.arr [JValue.num 1, JValue.num 2]),
         ("files", JValue.str "p")]
        [("video", JValue.obj [("fps", JValue.num 5)]),
         ("presets", JValue.arr [JValue.num 1])]) "video" =
      some (JValue.obj
        (deep_update [("max_size_mb", JValue.num 25), ("fps", JValue.num 30)]
          [("fps", JValue.num 5)])) :=
  ⟨⟨by simp, by simp [getKey], by simp [getKey]⟩,
    ((deep_update_spec
      [("video", JValue.obj [("fps", JValue.num 5)]),
       ("presets", JValue.arr [JValue.num 1])]
      [("video", JValue.obj [("max_size_mb", JValue.num 25), ("fps", JValue.num 30)]),
       ("presets", JValue.arr [JValue.num 1, JValue.num 2]),
       ("files", JValue.str "p")]
      (by simp) "video").2.1
      [("fps", JValue.num 5)]
      [("max_size_mb", JValue.num 25), ("fps", JValue.num 30)]
      (by simp [getKey]) (by simp [getKey]))⟩

/-- C5: for every probe result reporting no audio stream, step 2 of the
pipeline writes exactly the header line plus a single placeholder note
comment, reports success, and invokes neither subtitle extraction nor the
transcription engine. -/
theorem step2_silent_spec (has_subtitles : Bool) (extractCode : ℤ)
    (extractOutExists transcribeOk : Bool) :
    step2 false has_subtitles extractCode extractOutExists transcribeOk =
      ⟨some silentVtt, true, false, false⟩ ∧
    silentVtt = vttHeaderLine ++ "\n" ++ silentNoteLine ++ "\n" :=
  ⟨rfl, rfl⟩

/-- C6 counterexample: the claim says extraction succeeds if and only if it
produces a non-empty output file, but `extract_subtitles` only tests
`code == 0 and output_path.exists()`: with exit code 0 and an existing but
empty (0-byte) output file, the code reports success while the file is not
non-empty. -/
theorem extract_subtitles_ok_ne_claimC6 :
    extract_subtitles_ok 0 true = true ∧ claimC6_success true 0 = false := by
  decide

/-- C6 amended: extraction is reported as success if and only if the ffmpeg
invocation exits 0 and the output file exists (possibly empty); when a
subtitle stream is present and extraction is not a success, the pipeline
falls back to transcription instead of failing. -/
theorem extract_subtitles_spec :
    (∀ (code : ℤ) (outExists : Bool),
      extract_subtitles_ok code outExists = true ↔ code = 0 ∧ outExists = true) ∧
    (∀ (c : ℤ) (e t : Bool),
      step2 true true c e t =
        if extract_subtitles_ok c e then ⟨none, true, true, false⟩
        else ⟨none, t, true, true⟩) := by
  constructor
  · intro code e
    simp [extract_subtitles_ok]
  · intro c e t
    rfl

/-- C7: with no explicit output path, `get_output_path` returns, for any
disk state in which `N` is the first candidate index free on disk (the
first `N` candidates of the sequence `base.ext, base-1.ext, base-2.ext, ...`
exist, candidate `N` does not, and nothing is assumed about later
candidates), the `(N+1)`-th candidate. -/
theorem get_output_path_unspecified_spec (fsExists : ℕ → Bool) (N fuel : ℕ)
    (base ext : String) (hN : ∀ i, i < N → fsExists i = true)
    (hNfree : fsExists N = false) (hfuel : N < fuel) :
    get_output_path none fsExists fuel base ext = some (candidateName base ext N) := by
  show (get_output_path_loop fsExists fuel 0).map (candidateName base ext) = _
  rw [get_output_path_loop_spec fsExists N hN hNfree fuel 0 (Nat.zero_le N) (by omega)]
  rfl

/-- C7 witness: with candidates 0 and 1 existing (`video.vtt` and
`video-1.vtt`), the third candidate `video-2.vtt` is returned; with a
gapped disk state where only `video-1.vtt` exists but `video.vtt` is free,
the first candidate `video.vtt` is returned. -/
theorem get_output_path_unspecified_witness :
    ((∀ i : ℕ, i < 2 → (fun i => decide (i < 2)) i = true) ∧
      (fun i => decide (i < 2)) 2 = false ∧ 2 < 3 ∧
      get_output_path none (fun i => decide (i < 2)) 3 "video" "vtt" =
        some (candidateName "video" "vtt" 2) ∧
      candidateName "video" "vtt" 2 = "video-2.vtt") ∧
    ((∀ i : ℕ, i < 0 → (fun i => decide (i = 1)) i = true) ∧
      (fun i => decide (i = 1)) 0 = false ∧ 0 < 3 ∧
      get_output_path none (fun i => decide (i = 1)) 3 "video" "vtt" =
        some (candidateName "video" "vtt" 0) ∧
      candidateName "video" "vtt" 0 = "video.vtt") :=
  ⟨⟨fun i hi => decide_eq_true hi, by decide, by decide,
    get_output_path_unspecified_spec (fun i => decide (i < 2)) 2 3 "video" "vtt"
      (fun i hi => decide_eq_true hi) (by decide) (by decide),
    by decide⟩,
   ⟨fun i hi => absurd hi (Nat.not_lt_zero i), by decide, by decide,
    get_output_path_unspecified_spec (fun i => decide (i = 1)) 0 3 "video" "vtt"
      (fun i hi => absurd hi (Nat.not_lt_zero i)) (by decide) (by decide),
    by decide⟩⟩

/-- C10 counterexample: the claim says a specified output path is returned
unconditionally, but `if specified:` is a truthiness test: for the
specified empty string the code falls through to the disambiguation loop
and (with no colliding file on disk) returns `video.vtt`, not `""`. -/
theorem get_output_path_empty_ne_claimC10 :
    get_output_path (some "") (fun _ => false) 1 "video" "vtt" ≠ some "" := by
  decide

/-- C10 amended: a specified non-empty output path is returned exactly and
unconditionally — independent of the filesystem state, so no existence
check, no suffix disambiguation, and an existing file at that path is
overwritten; a specified empty string is falsy and is treated exactly like
an unspecified path. -/
theorem get_output_path_specified_spec (s : String) (hs : s ≠ "")
    (fsExists fsExists' : ℕ → Bool) (fuel fuel' : ℕ) (base ext base' ext' : String) :
    get_output_path (some s) fsExists fuel base ext = some s ∧
    get_output_path (some s) fsExists fuel base ext =
      get_output_path (some s) fsExists' fuel' base' ext' ∧
    get_output_path (some "") fsExists fuel base ext =
      get_output_path none fsExists fuel base ext := by
  have hE : s.isEmpty = false := by
    rcases hh : s.isEmpty with _ | _
    · rfl
    · exact absurd ((String.isEmpty_iff s).mp hh) hs
  refine ⟨?_, ?_, rfl⟩
  · simp [get_output_path, hE]
  · simp [get_output_path, hE]

/-- C10 witness: the non-empty path `out.vtt` is returned as-is even on a
disk where every name exists, and independently of the filesystem
parameters; the empty string behaves like an unspecified path. -/
theorem get_output_path_specified_witness :
    ("out.vtt" : String) ≠ "" ∧
    get_output_path (some "out.vtt") (fun _ => true) 5 "video" "vtt" = some "out.vtt" ∧
    get_output_path (some "out.vtt") (fun _ => true) 5 "video" "vtt" =
      get_output_path (some "out.vtt") (fun _ => false) 0 "x" "y" ∧
    get_output_path (some "") (fun _ => true) 5 "video" "vtt" =
      get_output_path none (fun _ => true) 5 "video" "vtt" :=
  ⟨by decide,
    get_output_path_specified_spec "out.vtt" (by decide) (fun _ => true) (fun _ => false)
      5 0 "video" "vtt" "x" "y"⟩

/-- C9 counterexample: the claim maps a `/media/`-prefixed path to the file
named by the remaining suffix, but the code uses `path.replace("/media/", "")`,
which deletes every occurrence: on `"/media/a/media/b"` the code serves
`a/b` from the media directory while the claimed suffix is `a/media/b`. -/
theorem resolveGet_ne_claimC9 :
    resolveGet (fun _ => false) ("/media/a/media/b".toList) ≠
      claimC9_resolve (fun _ => false) ("/media/a/media/b".toList) := by
  decide

/-- C9 amended: `GET /` resolves to the player page; a path beginning with
`/media/` is served from the media directory under the name obtained by
deleting every occurrence of `/media/`; any other path whose `/`-stripped
name exists under the media directory and does not end in `.html` is also
served from the media directory; all remaining paths use the default
static-file resolution rooted at the application directory. -/
theorem resolveGet_spec (mediaExists : List Char → Bool) (path : List Char) :
    resolveGet mediaExists path = claimC9_amended mediaExists path := by
  by_cases h : path = "/".toList
  · have hx : ((mediaExists (lstripSlash ("/player.html".toList)) &&
        !(htmlSuffix.isSuffixOf (lstripSlash ("/player.html".toList)))) = true) → False := by
      rw [(by decide : htmlSuffix.isSuffixOf (lstripSlash ("/player.html".toList)) = true)]
      simp
    rw [resolveGet, if_pos h, claimC9_amended, if_pos h, translate_path,
      if_neg (by decide), if_neg hx]
  · rw [resolveGet, if_neg h, claimC9_amended, if_neg h, translate_path]

end OpenVTT
